import Mathlib

/-!
Verification of the `grr` CLI's CR-synchronization core (`lib/cli.js`).

The definitions below are a shallow embedding of the canonical draft of
`lib/cli.js`.  External effects (git subprocesses, the gerrit backend,
issue-tracker HTTP fetches) are modelled explicitly: reads become function
parameters, mutating subprocess invocations become lists of argv vectors,
and callback-style failure becomes `Except String`.  JavaScript strings
that may be `undefined` are modelled as `""` (both are falsy in the
source's truthiness tests, and git config reads return `""` for unset
keys).
-/

namespace Grr

/-- `var MASTER = 'master'` -/
def MASTER : String := "master"

/-- An issue record, as threaded through `parseIssueArg` and the extra-issue
steps.  Fields that a given source object has not (yet) set are `""`. -/
structure Issue where
  issueType : String
  issueName : String
  issueId : String
  issueTitle : String
deriving Repr, DecidableEq

/-- A local git commit parsed by `stepGetGitCommits` from
`git log --pretty=medium master..`; the list is ordered newest first.
`author` stands for `meta.Author`. -/
structure Commit where
  sha : String
  author : String
  message : String
deriving Repr, DecidableEq

/-- One approval on the current patch set of a gerrit CR. -/
structure Approval where
  type : String
  value : String
  byName : String
  byEmail : String
deriving Repr, DecidableEq

/-- The slice of a `gerrit query --current-patch-set` hit used by the core
(`arg.currentCr`).  A missing `approvals` array is modelled as `[]`, which
produces the same (empty) trailer list as the source's falsiness check. -/
structure CurrentCr where
  commitMessage : String
  patchSetNumber : String
  approvals : List Approval
deriving Repr, DecidableEq

/-- `[A-Z]` -/
def isUpperAZ (c : Char) : Bool := 'A' ≤ c && c ≤ 'Z'

/-- `\d` -/
def isDigit09 (c : Char) : Bool := c.isDigit

/-- `[\w_-]`, i.e. `[A-Za-z0-9_-]` (the regexes are used without the
unicode flag, so `\w` is ASCII). -/
def isWordOrDash (c : Char) : Bool := c.isAlphanum || c = '_' || c = '-'

/-- `/^[A-Z]+-\d+$/`: a nonempty run of capitals, a dash, a nonempty run
of digits.  Since `-` and digits are not capitals, the greedy split at the
maximal capital run is the only possible decomposition. -/
def matchJiraKey (l : List Char) : Bool :=
  let p := l.takeWhile isUpperAZ
  match l.drop p.length with
  | '-' :: ds => !p.isEmpty && !ds.isEmpty && ds.all isDigit09
  | _ => false

/-- Strip an expected literal prefix, returning the remainder. -/
def stripLit : List Char → List Char → Option (List Char)
  | [], l => some l
  | _ :: _, [] => none
  | p :: ps, c :: cs => if p = c then stripLit ps cs else none

/-- Split at the first occurrence of `sep`, which is dropped. -/
def splitOnceChar (sep : Char) : List Char → Option (List Char × List Char)
  | [] => none
  | c :: cs =>
    if c = sep then some ([], cs)
    else (splitOnceChar sep cs).map (fun pr => (c :: pr.1, pr.2))

/-- `/^([\w_-]+\/[\w_-]+)#(\d+)$/`, returning (project chars, digit chars).
`#` cannot occur in `[\w_-]` or `\d`, and `/` cannot occur in `[\w_-]`, so
splitting at the first `#` and the first `/` is faithful to the regex. -/
def matchGithubProjectIssue (l : List Char) : Option (List Char × List Char) :=
  match splitOnceChar '#' l with
  | none => none
  | some (proj, num) =>
    if num ≠ [] ∧ num.all isDigit09 then
      match splitOnceChar '/' proj with
      | none => none
      | some (a, b) =>
        if a ≠ [] ∧ a.all isWordOrDash ∧ b ≠ [] ∧ b.all isWordOrDash then
          some (proj, num)
        else none
    else none

/-- The part of `/^https:\/\/github\.com\/([\w_-]+\/[\w_-]+)\/issues\/(\d+)$/`
after the host, returning (account chars, project chars, digit chars).
`[\w_-]+` cannot contain `/`, so the maximal (takeWhile) runs are the only
candidate match. -/
def matchGithubUrlTail (l : List Char) : Option (List Char × List Char × List Char) :=
  let a := l.takeWhile isWordOrDash
  match l.drop a.length with
  | '/' :: rest =>
    let b := rest.takeWhile isWordOrDash
    match stripLit "/issues/".toList (rest.drop b.length) with
    | some ds =>
      if !a.isEmpty && !b.isEmpty && !ds.isEmpty && ds.all isDigit09 then
        some (a, b, ds)
      else none
    | none => none
  | _ => none

def JIRA_BROWSE_URL : String := "https://jira.joyent.us/browse/"

def GITHUB_URL : String := "https://github.com/"

/-- `parseIssueArg(issue, repoName, issueArg, cb)`: validate and normalize a
user-given `<issue>` argument, setting `issueType` / `issueName` / `issueId`
on `issue` (other fields, notably `issueTitle`, are preserved).  The five
recognized shapes are tried in source order; an argument matching none of
them fails with `invalid <issue> arg`. -/
def matchJiraUrl (l : List Char) : Option (List Char) :=
  match stripLit JIRA_BROWSE_URL.toList l with
  | some rest => if matchJiraKey rest then some rest else none
  | none => none

/-- Match for `/^https:\/\/github\.com\/([\w_-]+\/[\w_-]+)\/issues\/(\d+)$/`. -/
def matchGithubUrl (l : List Char) : Option (List Char × List Char × List Char) :=
  match stripLit GITHUB_URL.toList l with
  | some tail => matchGithubUrlTail tail
  | none => none

def parseIssueArg (issue : Issue) (repoName issueArg : String) : Except String Issue :=
  if matchJiraKey issueArg.toList then
    -- FOO-123
    Except.ok { issue with issueType := "jira", issueId := issueArg, issueName := issueArg }
  else match matchJiraUrl issueArg.toList with
  | some rest =>
    -- https://jira.joyent.us/browse/FOO-123
    let key := String.mk rest
    Except.ok { issue with issueType := "jira", issueId := key, issueName := key }
  | none =>
    if issueArg.toList ≠ [] ∧ issueArg.toList.all isDigit09 then
      -- 123
      Except.ok { issue with issueType := "github",
                             issueName := repoName ++ "#" ++ issueArg,
                             issueId := issueArg }
    else match matchGithubProjectIssue issueArg.toList with
    | some (proj, num) =>
      -- account/project#123
      if String.mk proj ≠ repoName then
        Except.error ("project from <issue>, " ++ String.mk proj
          ++ ", does not match repo name, " ++ repoName)
      else
        Except.ok { issue with issueType := "github",
                               issueName := issueArg,
                               issueId := String.mk num }
    | none =>
      match matchGithubUrl issueArg.toList with
      | some (a, b, ds) =>
        -- https://github.com/account/project/issues/123
        let proj := String.mk a ++ "/" ++ String.mk b
        if proj ≠ repoName then
          Except.error ("project from <issue>, " ++ proj
            ++ ", does not match repo name, " ++ repoName)
        else
          Except.ok { issue with issueType := "github",
                                 issueName := proj ++ "#" ++ String.mk ds,
                                 issueId := String.mk ds }
      | none => Except.error ("invalid <issue> arg: " ++ issueArg)

/-! ### Branch Metadata Store (`getBranchConfigKey` / `setBranchConfigKey` /
`stepRemoveBranchConfig`)

Reads take the underlying `git config --local` store as a function from
full key name to stored value (`""` when unset, matching the tolerated
`ret=1` "key not found" exit).  Mutations are modelled by the list of
argv vectors the step hands to `forkExecWait`. -/

/-- `getBranchConfigKey(key, arg, cb)`: per-branch config read, guarded so
that the master branch never carries (or reports) grr config. -/
def getBranchConfigKey (gitBranch : String) (store : String → String)
    (key : String) : String :=
  if gitBranch = MASTER then ""
  else store ("branch." ++ gitBranch ++ "." ++ key)

/-- `setBranchConfigKey(key, val, arg, cb)`: the `git config --local` write
it executes.  There is no master-branch guard in this function; it writes
to whatever `arg.issueBranch` holds. -/
def setBranchConfigKeyCmds (issueBranch key val : String) : List (List String) :=
  [["git", "config", "--local", "branch." ++ issueBranch ++ "." ++ key, val]]

/-- `stepRemoveBranchConfig(arg, cb)`: the `--remove-section` invocation it
executes (a missing section is tolerated).  No master-branch guard here
either. -/
def stepRemoveBranchConfigCmds (gitBranch : String) : List (List String) :=
  [["git", "config", "--local", "--remove-section", "branch." ++ gitBranch]]

/-- `stepEnsureOnIssueBranch`: the branch that becomes `arg.issueBranch`.
Off master the current branch is adopted as-is; on master a
`grr-<issueId>` branch is created and checked out. -/
def stepEnsureOnIssueBranch (gitBranch issueId : String) : String :=
  if gitBranch ≠ MASTER then gitBranch else "grr-" ++ issueId

/-! ### `ensureIssueId` (inside `grrUpdateOrCreate`) -/

/-- `ensureIssueId(arg, next)`: reconcile the (optional) parsed `<issue>`
argument with the (optional) cached `branch.<branch>.issue` value.
`issue.issueId = ""` encodes "no issue argument given". -/
def ensureIssueId (repoName gitBranch : String) (issue : Issue)
    (branchConfigIssue : String) : Except String Issue :=
  if issue.issueId ≠ "" ∧ branchConfigIssue ≠ "" ∧ issue.issueId ≠ branchConfigIssue then
    Except.error ("issue conflict: \"" ++ issue.issueId
      ++ "\" does not match the stored issue (" ++ branchConfigIssue
      ++ ") for the current branch (" ++ gitBranch ++ ")")
  else if issue.issueId = "" ∧ branchConfigIssue = "" then
    if gitBranch = MASTER then
      Except.error "missing <issue> argument"
    else
      Except.error "grr was not setup with an <issue> for this branch, use `grr <issue>`"
  else if issue.issueId = "" then
    parseIssueArg issue repoName branchConfigIssue
  else
    Except.ok issue

/-! ### Extra issues (`stepRemoveExtraIssues` / `stepParseExtraIssues`) -/

/-- The `{ issueId: item }` objects built from `-r`/`-a` arguments. -/
def mkArgIssue (item : String) : Issue := ⟨"", "", item, ""⟩

/-- The `vasync.forEachPipeline` body of `stepRemoveExtraIssues`: parse each
removal argument, refuse to remove the main issue, and filter the parsed
id out of the extra-issue list. -/
def removeExtraIssuesLoop (repoName mainIssueId : String) :
    List String → List Issue → Except String (List Issue)
  | [], extraIssues => Except.ok extraIssues
  | item :: rest, extraIssues =>
    match parseIssueArg (mkArgIssue item) repoName item with
    | Except.error e => Except.error e
    | Except.ok iss =>
      if iss.issueId = mainIssueId then
        Except.error ("cannot remove main issue " ++ mainIssueId)
      else
        removeExtraIssuesLoop repoName mainIssueId rest
          (extraIssues.filter (fun x => x.issueId != iss.issueId))

/-- `stepRemoveExtraIssues(arg, cb)`. -/
def stepRemoveExtraIssues (repoName mainIssueId : String)
    (removeExtraIssueArgs : List String) (extraIssues : List Issue) :
    Except String (List Issue) :=
  removeExtraIssuesLoop repoName mainIssueId removeExtraIssueArgs extraIssues

/-- The per-issue body of `stepParseExtraIssues`: re-parse every entry
(cached and newly added), refuse the main issue, refuse an id already
seen, and (re-)fetch the title.  The source fans the title fetches out
with `vasync.forEachParallel`, but `parseIssueArg` and both checks run
synchronously in input order before any fetch completes, so the
sequential model agrees with the source on every successful run. -/
def parseExtraIssuesLoop (repoName mainIssueId : String)
    (fetchTitle : Issue → Except String String) :
    List Issue → List String → Except String (List Issue)
  | [], _ => Except.ok []
  | iss :: rest, seenAlready =>
    match parseIssueArg iss repoName iss.issueId with
    | Except.error e => Except.error e
    | Except.ok iss2 =>
      if iss2.issueId = mainIssueId then
        Except.error ("cannot add main issue " ++ mainIssueId ++ " as an extra issue")
      else if seenAlready.contains iss2.issueId then
        Except.error ("duplicate extra issue " ++ iss2.issueId)
      else
        match fetchTitle iss2 with
        | Except.error e => Except.error e
        | Except.ok title =>
          match parseExtraIssuesLoop repoName mainIssueId fetchTitle rest
              (iss2.issueId :: seenAlready) with
          | Except.error e => Except.error e
          | Except.ok l => Except.ok ({ iss2 with issueTitle := title } :: l)

/-- `stepParseExtraIssues(arg, cb)`: append the `-a` arguments to the
cached list, then validate and decorate every entry. -/
def stepParseExtraIssues (repoName mainIssueId : String)
    (fetchTitle : Issue → Except String String)
    (addExtraIssueArgs : List String) (extraIssues : List Issue) :
    Except String (List Issue) :=
  parseExtraIssuesLoop repoName mainIssueId fetchTitle
    (extraIssues ++ addExtraIssueArgs.map mkArgIssue) []

/-! ### Persisting metadata (`stepSetBranchConfig*`) -/

/-- The cached per-branch values read by the `stepGetBranchConfig*` steps
(each is `""` when unset). -/
structure BranchConfig where
  issue : String
  extraIssues : String
  title : String
  parenthetical : String
deriving Repr, DecidableEq

/-- A minimal JSON string escape, enough for `JSON.stringify` on the
issue-field strings. -/
def jsonEscape (s : String) : String :=
  s.toList.foldl
    (fun acc c =>
      acc ++ (if c = '"' then "\\\"" else if c = '\\' then "\\\\" else String.mk [c]))
    ""

/-- `JSON.stringify` of one extra-issue object (key order as built by
`parseIssueArg` and `stepParseExtraIssues`). -/
def serializeIssue (i : Issue) : String :=
  "\x7b\"issueId\":\"" ++ jsonEscape i.issueId
    ++ "\",\"issueType\":\"" ++ jsonEscape i.issueType
    ++ "\",\"issueName\":\"" ++ jsonEscape i.issueName
    ++ "\",\"issueTitle\":\"" ++ jsonEscape i.issueTitle ++ "\"\x7d"

/-- `JSON.stringify(arg.extraIssues)`. -/
def serializeExtraIssues (l : List Issue) : String :=
  "[" ++ String.intercalate "," (l.map serializeIssue) ++ "]"

/-- `stepSetBranchConfigIssue`: writes only when the cached value differs. -/
def stepSetBranchConfigIssueCmds (branchConfigIssue issueId issueBranch : String) :
    List (List String) :=
  if branchConfigIssue = issueId then []
  else setBranchConfigKeyCmds issueBranch "issue" issueId

/-- `stepSetBranchConfigTitle`: writes only when the cached value differs. -/
def stepSetBranchConfigTitleCmds (branchConfigTitle issueTitle issueBranch : String) :
    List (List String) :=
  if branchConfigTitle = issueTitle then []
  else setBranchConfigKeyCmds issueBranch "title" issueTitle

/-- `stepSetBranchConfigParenthetical`: writes only when a parenthetical was
given and the cached value differs. -/
def stepSetBranchConfigParentheticalCmds
    (branchConfigParenthetical parenthetical issueBranch : String) :
    List (List String) :=
  if parenthetical = "" ∨ branchConfigParenthetical = parenthetical then []
  else setBranchConfigKeyCmds issueBranch "parenthetical" parenthetical

/-- `stepSetBranchConfigExtraIssues`: writes the serialized list whenever it
is nonempty — there is no comparison against the cached value. -/
def stepSetBranchConfigExtraIssuesCmds (extraIssues : List Issue)
    (issueBranch : String) : List (List String) :=
  if extraIssues.length > 0 then
    setBranchConfigKeyCmds issueBranch "extraIssues" (serializeExtraIssues extraIssues)
  else []

/-- `stepSetBranchConfigLastPushedSha`: writes only when the cached value
differs. -/
def stepSetBranchConfigLastPushedShaCmds
    (branchConfigLastPushedSha lastPushedSha issueBranch : String) :
    List (List String) :=
  if branchConfigLastPushedSha = lastPushedSha then []
  else setBranchConfigKeyCmds issueBranch "lastPushedSha" lastPushedSha

/-- The persist-metadata block of the `grrUpdateOrCreate` pipeline
(`stepSetBranchConfigIssue; stepSetBranchConfigExtraIssues;
stepSetBranchConfigTitle; stepSetBranchConfigParenthetical`), as the list
of `git config` writes it executes. -/
def persistMetadataCmds (cached : BranchConfig) (issueBranch issueId : String)
    (extraIssues : List Issue) (issueTitle parenthetical : String) :
    List (List String) :=
  stepSetBranchConfigIssueCmds cached.issue issueId issueBranch
    ++ stepSetBranchConfigExtraIssuesCmds extraIssues issueBranch
    ++ stepSetBranchConfigTitleCmds cached.title issueTitle issueBranch
    ++ stepSetBranchConfigParentheticalCmds cached.parenthetical parenthetical issueBranch

/-! ### Target commit message (`stepGetCommitMessage`) -/

/-- `'Reviewed by: %s <%s>'` -/
def fmtReviewedBy (a : Approval) : String :=
  "Reviewed by: " ++ a.byName ++ " <" ++ a.byEmail ++ ">"

/-- `'Approved by: %s <%s>'` -/
def fmtApprovedBy (a : Approval) : String :=
  "Approved by: " ++ a.byName ++ " <" ++ a.byEmail ++ ">"

/-- The `approvalMsgs` array of `stepGetCommitMessage`: one pass appending
`Reviewed by` lines for `Code-Review` approvals with value `'1'`, then one
pass appending `Approved by` lines for `Integration-Approval` approvals
with value `'1'` (the source compares with `=== '1'` resp. `== '1'`, which
on the string-valued gerrit approvals is equality with `"1"`). -/
def approvalMsgs (approvals : List Approval) : List String :=
  let ms := approvals.foldl
    (fun acc a =>
      if a.type = "Code-Review" ∧ a.value = "1" then acc ++ [fmtReviewedBy a] else acc)
    []
  approvals.foldl
    (fun acc a =>
      if a.type = "Integration-Approval" ∧ a.value = "1" then acc ++ [fmtApprovedBy a] else acc)
    ms

/-- `stepGetCommitMessage(arg, cb)`: `"<name> <title>"`, an optional
`" (<parenthetical>)"`, one line per extra issue, then the approval
trailer lines of the current CR (if any). -/
def stepGetCommitMessage (issueName issueTitle branchConfigParenthetical : String)
    (extraIssues : List Issue) (currentCr : Option CurrentCr) : String :=
  let msg := issueName ++ " " ++ issueTitle
  let msg :=
    if branchConfigParenthetical ≠ "" then
      msg ++ " (" ++ branchConfigParenthetical ++ ")"
    else msg
  let msg := extraIssues.foldl
    (fun m i => m ++ "\n" ++ i.issueName ++ " " ++ i.issueTitle) msg
  match currentCr with
  | none => msg
  | some cr =>
    let ms := approvalMsgs cr.approvals
    if ms ≠ [] then msg ++ "\n" ++ String.intercalate "\n" ms else msg

/-! ### Commits to push and the create/update action
(`getCommitsToPush` / `stepCreateUpdateCr`) -/

/-- `arg.crAction`. -/
inductive CrAction where
  | create
  | update
  | updateCommitMessage
  | none
deriving Repr, DecidableEq

/-- `getCommitsToPush(arg, next)`: `arg.gitCommits` is newest first;
`Option.none` models `arg.commitsToPush = null`.  Nothing is new when
there are no commits, or when a `lastPushedSha` is cached and matches the
newest commit; otherwise take commits newest-first up to (excluding) the
one matching `lastPushedSha`. -/
def getCommitsToPush (branchConfigLastPushedSha : String)
    (gitCommits : List Commit) : Option (List Commit) :=
  match gitCommits with
  | [] => none
  | c0 :: _ =>
    if branchConfigLastPushedSha ≠ "" ∧ branchConfigLastPushedSha = c0.sha then
      none
    else
      some (gitCommits.takeWhile (fun c => branchConfigLastPushedSha != c.sha))

/-- JavaScript's `String.prototype.trim()`: strip whitespace from both
ends. -/
def jsTrim (s : String) : String :=
  String.mk (((s.toList.dropWhile Char.isWhitespace).reverse.dropWhile
    Char.isWhitespace).reverse)

/-- The action decision at the top of `stepCreateUpdateCr`: commits to push
mean `update` (CR cached) or `create`; otherwise a commit-message
difference (after `.trim()`) against the current CR means
`updateCommitMessage`; otherwise `none`. -/
def decideCrAction (commitsToPush : Option (List Commit))
    (currentCr : Option CurrentCr) (commitMessage : String) : CrAction :=
  match commitsToPush with
  | some (_ :: _) =>
    if currentCr.isSome then CrAction.update else CrAction.create
  | _ =>
    match currentCr with
    | some cr =>
      if jsTrim cr.commitMessage ≠ jsTrim commitMessage then CrAction.updateCommitMessage
      else CrAction.none
    | none => CrAction.none

/-- The branch-config state `stepCreateUpdateCr` can mutate, together with
the local commit list it reads. -/
structure ReconState where
  gitCommits : List Commit
  branchConfigLastPushedSha : String
  branchConfigCr : String
deriving Repr, DecidableEq

/-- Outcome of one `stepCreateUpdateCr` run: the decided action, the
resulting persisted state, whether a `git push` was executed, and whether
the step aborted with a thrown TypeError (`arg.gitCommits[0]` of an empty
array is `undefined`, so `arg.gitCommits[0].meta.Author` throws). -/
structure ReconResult where
  action : CrAction
  state : ReconState
  pushed : Bool
  runtimeError : Bool
deriving Repr, DecidableEq

/-- The body of `stepCreateUpdateCr` after the action decision.  For
`none` it returns immediately.  For every other action it first reads
`arg.gitCommits[0].meta.Author` (throwing on an empty commit list, before
any git command runs), then squashes and pushes; on a first push the CR
number parsed from the push output is persisted (`stepSetBranchConfigCr`),
and `lastPushedSha` is set to the newest commit's sha
(`stepSetBranchConfigLastPushedSha`). -/
def applyCrAction (pushedCrNum : String) (s : ReconState) (action : CrAction) :
    ReconResult :=
  if action = CrAction.none then
    ⟨CrAction.none, s, false, false⟩
  else
    match s.gitCommits with
    | [] => ⟨action, s, false, true⟩
    | c0 :: _ =>
      let s1 := if s.branchConfigCr = "" then { s with branchConfigCr := pushedCrNum } else s
      ⟨action, { s1 with branchConfigLastPushedSha := c0.sha }, true, false⟩

/-- `stepGetCurrentCr`: no CR is queried unless a `cr` number is cached;
`remote` abstracts a successful, sanity-checked `gerrit query`. -/
def queryCurrentCr (remote : String → CurrentCr) (branchConfigCr : String) :
    Option CurrentCr :=
  if branchConfigCr = "" then none else some (remote branchConfigCr)

/-- `getCommitsToPush` followed by `stepCreateUpdateCr`. -/
def reconcileTail (pushedCrNum : String) (s : ReconState) (commitMessage : String)
    (currentCr : Option CurrentCr) : ReconResult :=
  applyCrAction pushedCrNum s
    (decideCrAction (getCommitsToPush s.branchConfigLastPushedSha s.gitCommits)
      currentCr commitMessage)

/-- The metadata inputs of `stepGetCommitMessage` that are fixed by the
branch's persisted state and the issue tracker. -/
structure MsgInputs where
  issueName : String
  issueTitle : String
  branchConfigParenthetical : String
  extraIssues : List Issue
deriving Repr, DecidableEq

/-- One reconciliation invocation, from `stepGetCurrentCr` through
`stepCreateUpdateCr`: query the current CR, compute the target commit
message, decide and apply the action. -/
def invoke (remote : String → CurrentCr) (pushedCrNum : String) (mi : MsgInputs)
    (s : ReconState) : ReconResult :=
  let currentCr := queryCurrentCr remote s.branchConfigCr
  let msg := stepGetCommitMessage mi.issueName mi.issueTitle
    mi.branchConfigParenthetical mi.extraIssues currentCr
  reconcileTail pushedCrNum s msg currentCr

/-! ### Teardown (`grrDelete` / `isGrrBranch` / `stepDeleteGitBranchIfGrr`) -/

/-- `isGrrBranch(s)`: `/^grr[-\/]([^\/]+)$/`. -/
def isGrrBranch (s : String) : Bool :=
  match s.toList with
  | 'g' :: 'r' :: 'r' :: c :: rest =>
    (c = '-' || c = '/') && !rest.isEmpty && rest.all (fun x => x ≠ '/')
  | _ => false

/-- `grrDelete(opts, cb)`: refuse on master; otherwise remove the branch
config section and, only for a conventionally named grr branch, check out
master and force-delete the branch.  The result is the list of mutating
git commands executed (`grr -D` passes no issue argument, so
`stepValidateIssueArg` and the issue-conflict check are no-ops). -/
def grrDelete (dryRun : Bool) (gitBranch : String) :
    Except String (List (List String)) :=
  if dryRun then
    Except.error "\"dryRun\" option is not yet supported"
  else if gitBranch = MASTER then
    Except.error ("cannot grr -D on branch " ++ MASTER)
  else
    Except.ok (stepRemoveBranchConfigCmds gitBranch
      ++ (if isGrrBranch gitBranch then
            [["git", "checkout", MASTER], ["git", "branch", "-D", gitBranch]]
          else []))

/-! ### Helper lemmas -/

lemma foldl_pushIf {α β : Type} (p : α → Prop) [DecidablePred p] (f : α → β)
    (l : List α) : ∀ init : List β,
    l.foldl (fun acc a => if p a then acc ++ [f a] else acc) init
      = init ++ (l.filter (fun a => p a)).map f := by
  induction l with
  | nil => intro init; simp
  | cons a t ih =>
    intro init
    by_cases h : p a
    · simp [List.foldl_cons, h, ih, List.filter_cons]
    · simp [List.foldl_cons, h, ih, List.filter_cons]

lemma takeWhile_eq_self_of {α : Type} (p : α → Bool) :
    ∀ l : List α, (∀ x ∈ l, p x = true) → l.takeWhile p = l := by
  intro l
  induction l with
  | nil => simp
  | cons a t ih =>
    intro h
    rw [List.takeWhile_cons, if_pos (h a (by simp))]
    rw [ih (fun x hx => h x (by simp [hx]))]

lemma takeWhile_append_of {α : Type} (p : α → Bool) :
    ∀ (pre : List α) (x : α) (post : List α),
    (∀ c ∈ pre, p c = true) → p x = false →
    (pre ++ x :: post).takeWhile p = pre := by
  intro pre
  induction pre with
  | nil => intro x post _ hx; simp [List.takeWhile_cons, hx]
  | cons a t ih =>
    intro x post h hx
    rw [List.cons_append, List.takeWhile_cons, if_pos (h a (by simp))]
    rw [ih x post (fun c hc => h c (by simp [hc])) hx]

/-! ### C2: approval trailer lines -/

/-- C2 counterexample: a `Code-Review` approval with the positive value
`"2"` produces no trailer line at all — the computed commit message for a
CR whose only approval is `{type: Code-Review, value: 2, B <b@x>}` is just
the title line, refuting the claim that every positive-valued
review-approval yields a `Reviewed by` line. -/
theorem c2_trailer_counterexample :
    approvalMsgs [⟨"Code-Review", "2", "B", "b@x"⟩] = []
    ∧ stepGetCommitMessage "FOO-1" "fix" "" []
        (some ⟨"", "1", [⟨"Code-Review", "2", "B", "b@x"⟩]⟩) = "FOO-1 fix"
    ∧ (0 : Int) < 2 := by
  refine ⟨rfl, rfl, by norm_num⟩

/-- C2 (amended): the trailer lines of the computed commit message are
exactly one `Reviewed by: <name> <email>` line per `Code-Review` approval
whose value is exactly the string `"1"`, followed by one
`Approved by: <name> <email>` line per `Integration-Approval` approval
whose value is exactly `"1"`.  Approvals with any other value — including
non-positive values such as `"-1"`, but also other positive values such as
`"2"` — never produce a trailer line. -/
theorem c2_trailer_amended (approvals : List Approval) :
    approvalMsgs approvals
      = ((approvals.filter
            (fun a => a.type = "Code-Review" ∧ a.value = "1")).map fmtReviewedBy)
        ++ ((approvals.filter
            (fun a => a.type = "Integration-Approval" ∧ a.value = "1")).map fmtApprovedBy) := by
  unfold approvalMsgs
  rw [foldl_pushIf, foldl_pushIf]
  simp

/-! ### C5: Branch Metadata Store guard on the main line -/

/-- C5 counterexample: `setBranchConfigKey` and `stepRemoveBranchConfig`
have no main-line guard — invoked for the `master` branch they execute a
real `git config` write resp. section removal rather than being no-ops. -/
theorem c5_store_guard_counterexample :
    setBranchConfigKeyCmds MASTER "issue" "TOOLS-1"
      = [["git", "config", "--local", "branch.master.issue", "TOOLS-1"]]
    ∧ stepRemoveBranchConfigCmds MASTER
      = [["git", "config", "--local", "--remove-section", "branch.master"]]
    ∧ (setBranchConfigKeyCmds MASTER "issue" "TOOLS-1" == []) = false
    ∧ (stepRemoveBranchConfigCmds MASTER == []) = false := by
  refine ⟨rfl, rfl, by decide, by decide⟩

/-- C5 (amended): only the read operation (`getBranchConfigKey`) refuses
silently on the main line (returning `""` without consulting the store);
the writers have no guard of their own.  The never-write-on-main-line
invariant still holds because the callers maintain it: every
metadata write in the reconciliation pipeline targets `arg.issueBranch`,
which `stepEnsureOnIssueBranch` guarantees is never the main line, and
teardown fails before its metadata removal when on the main line. -/
theorem c5_metadata_never_on_master :
    (∀ (store : String → String) (key : String),
      getBranchConfigKey MASTER store key = "")
    ∧ (∀ gitBranch issueId : String,
        (stepEnsureOnIssueBranch gitBranch issueId == MASTER) = false)
    ∧ grrDelete false MASTER = Except.error ("cannot grr -D on branch " ++ MASTER) := by
  refine ⟨fun store key => by simp [getBranchConfigKey], ?_, rfl⟩
  intro gitBranch issueId
  rw [beq_eq_false_iff_ne]
  unfold stepEnsureOnIssueBranch
  split
  · assumption
  · obtain ⟨l⟩ := issueId
    intro h
    have h2 := congrArg String.data h
    simp [MASTER, String.data_append] at h2

/-! ### C6: teardown -/

/-- C6: teardown on the main line fails with the cannot-delete-main-line
error and executes no mutating command; on a branch matching the grr
naming convention it removes the branch's config section, checks out the
main line, then force-deletes the branch; on a non-matching branch it
removes the config section only. -/
theorem c6_teardown :
    grrDelete false MASTER = Except.error ("cannot grr -D on branch " ++ MASTER)
    ∧ (∀ gitBranch : String, isGrrBranch gitBranch = true →
        grrDelete false gitBranch
          = Except.ok
              [["git", "config", "--local", "--remove-section", "branch." ++ gitBranch],
               ["git", "checkout", MASTER],
               ["git", "branch", "-D", gitBranch]])
    ∧ (∀ gitBranch : String, gitBranch ≠ MASTER → isGrrBranch gitBranch = false →
        grrDelete false gitBranch
          = Except.ok
              [["git", "config", "--local", "--remove-section", "branch." ++ gitBranch]]) := by
  refine ⟨rfl, ?_, ?_⟩
  · intro gitBranch h
    have hm : gitBranch ≠ MASTER := by
      intro e
      rw [e] at h
      exact absurd h (by decide)
    simp [grrDelete, hm, h, stepRemoveBranchConfigCmds]
  · intro gitBranch hm h
    simp [grrDelete, hm, h, stepRemoveBranchConfigCmds]

/-- C6 witness: concrete instances of the two branch-shaped cases. -/
theorem c6_teardown_witness :
    grrDelete false "grr-TOOLS-1516"
      = Except.ok
          [["git", "config", "--local", "--remove-section", "branch." ++ "grr-TOOLS-1516"],
           ["git", "checkout", MASTER],
           ["git", "branch", "-D", "grr-TOOLS-1516"]]
    ∧ grrDelete false "mybranch"
      = Except.ok
          [["git", "config", "--local", "--remove-section", "branch." ++ "mybranch"]] :=
  ⟨c6_teardown.2.1 "grr-TOOLS-1516" (by decide),
   c6_teardown.2.2 "mybranch" (by decide) (by decide)⟩

/-! ### C8: persist-metadata writes -/

/-- C8 counterexample: with every field's new value equal to its cached
value (issue, serialized extra-issue list, title, parenthetical all
unchanged), the persist-metadata block still executes a `git config` write
for `extraIssues` — `stepSetBranchConfigExtraIssues` writes whenever the
list is nonempty, without comparing against the cached value. -/
theorem c8_persist_counterexample :
    persistMetadataCmds
        ⟨"TOOLS-1", serializeExtraIssues [⟨"jira", "TOOLS-2", "TOOLS-2", "x"⟩], "t", "p"⟩
        "grr-TOOLS-1" "TOOLS-1" [⟨"jira", "TOOLS-2", "TOOLS-2", "x"⟩] "t" "p"
      = setBranchConfigKeyCmds "grr-TOOLS-1" "extraIssues"
          (serializeExtraIssues [⟨"jira", "TOOLS-2", "TOOLS-2", "x"⟩])
    ∧ ((persistMetadataCmds
          ⟨"TOOLS-1", serializeExtraIssues [⟨"jira", "TOOLS-2", "TOOLS-2", "x"⟩], "t", "p"⟩
          "grr-TOOLS-1" "TOOLS-1" [⟨"jira", "TOOLS-2", "TOOLS-2", "x"⟩] "t" "p") == [])
      = false := by
  refine ⟨rfl, by decide⟩

/-- C8 (amended): the persist-metadata block writes no field iff the issue
id is unchanged, the extra-issue list is empty, the title is unchanged,
and the parenthetical is absent or unchanged.  The issue, title and
parenthetical setters short-circuit on equality with the cached value, but
the extra-issues setter writes the serialized list whenever it is
nonempty, changed or not (and never writes, hence never clears, when it is
empty). -/
theorem c8_persist_only_changed_amended (cached : BranchConfig)
    (issueBranch issueId : String) (extraIssues : List Issue)
    (issueTitle parenthetical : String) :
    persistMetadataCmds cached issueBranch issueId extraIssues issueTitle parenthetical = []
      ↔ (cached.issue = issueId ∧ extraIssues = [] ∧ cached.title = issueTitle
          ∧ (parenthetical = "" ∨ cached.parenthetical = parenthetical)) := by
  have hIssue : stepSetBranchConfigIssueCmds cached.issue issueId issueBranch = []
      ↔ cached.issue = issueId := by
    unfold stepSetBranchConfigIssueCmds setBranchConfigKeyCmds
    split_ifs with h <;> simp [h]
  have hExtra : stepSetBranchConfigExtraIssuesCmds extraIssues issueBranch = []
      ↔ extraIssues = [] := by
    unfold stepSetBranchConfigExtraIssuesCmds setBranchConfigKeyCmds
    split_ifs with h
    · simp [List.length_pos] at h
      simp [h]
    · simp at h
      simp [h]
  have hTitle : stepSetBranchConfigTitleCmds cached.title issueTitle issueBranch = []
      ↔ cached.title = issueTitle := by
    unfold stepSetBranchConfigTitleCmds setBranchConfigKeyCmds
    split_ifs with h <;> simp [h]
  have hPar : stepSetBranchConfigParentheticalCmds cached.parenthetical parenthetical
        issueBranch = []
      ↔ (parenthetical = "" ∨ cached.parenthetical = parenthetical) := by
    unfold stepSetBranchConfigParentheticalCmds setBranchConfigKeyCmds
    split_ifs with h <;> simp [h]
  rw [persistMetadataCmds, List.append_eq_nil, List.append_eq_nil, List.append_eq_nil]
  rw [hIssue, hExtra, hTitle, hPar]
  tauto

/-! ### C4: primary issue identity reconciliation -/

/-- C4 counterexample: with no issue argument and a cached issue whose
value matches none of the recognized issue shapes, `ensureIssueId` fails
with the invalid-issue parse error instead of adopting the cached value —
the cached issue IS re-validated (via `parseIssueArg`), refuting the
"without re-validating its shape" part of the claim. -/
theorem c4_revalidation_counterexample :
    ensureIssueId "play" "grr-x" ⟨"", "", "", ""⟩ "bogus"
      = Except.error "invalid <issue> arg: bogus" := rfl

/-- C4 (amended): exactly one of four cases applies: (a) argument and
cached issue both present and mismatched fails with the issue-conflict
error (and, the pipeline aborting, mutates nothing); (b) neither present
fails with a missing-issue error whose message depends on whether the
current branch is the main line; (c) only the cached issue present:
it is re-parsed (and thereby re-validated) via `parseIssueArg`, being
adopted when it parses and failing otherwise; (d) only the resolved
argument present (or both present and equal): it is used as-is. -/
theorem c4_issue_identity_cases :
    (∀ (repoName gitBranch : String) (issue : Issue) (cached : String),
      issue.issueId ≠ "" → cached ≠ "" → issue.issueId ≠ cached →
      ensureIssueId repoName gitBranch issue cached
        = Except.error ("issue conflict: \"" ++ issue.issueId
            ++ "\" does not match the stored issue (" ++ cached
            ++ ") for the current branch (" ++ gitBranch ++ ")"))
    ∧ (∀ (repoName : String) (issue : Issue),
        issue.issueId = "" →
        ensureIssueId repoName MASTER issue "" = Except.error "missing <issue> argument")
    ∧ (∀ (repoName gitBranch : String) (issue : Issue),
        issue.issueId = "" → gitBranch ≠ MASTER →
        ensureIssueId repoName gitBranch issue ""
          = Except.error
              "grr was not setup with an <issue> for this branch, use `grr <issue>`")
    ∧ (∀ (repoName gitBranch : String) (issue : Issue) (cached : String),
        issue.issueId = "" → cached ≠ "" →
        ensureIssueId repoName gitBranch issue cached = parseIssueArg issue repoName cached)
    ∧ (∀ (repoName gitBranch : String) (issue : Issue) (cached : String),
        issue.issueId ≠ "" → (cached = "" ∨ issue.issueId = cached) →
        ensureIssueId repoName gitBranch issue cached = Except.ok issue) := by
  refine ⟨?_, ?_, ?_, ?_, ?_⟩
  · intro repoName gitBranch issue cached h1 h2 h3
    simp [ensureIssueId, h1, h2, h3]
  · intro repoName issue h1
    simp [ensureIssueId, h1]
  · intro repoName gitBranch issue h1 h2
    simp [ensureIssueId, h1, h2]
  · intro repoName gitBranch issue cached h1 h2
    simp [ensureIssueId, h1, h2]
  · intro repoName gitBranch issue cached h1 h2
    rcases h2 with h2 | h2
    · simp [ensureIssueId, h1, h2]
    · have h3 : cached ≠ "" := h2 ▸ h1
      simp [ensureIssueId, h1, h2, h3]

/-- C4 witness: each of the amended cases at a concrete input. -/
theorem c4_issue_identity_cases_witness :
    ensureIssueId "play" "grr-FOO-1" ⟨"jira", "FOO-1", "FOO-1", ""⟩ "FOO-2"
      = Except.error ("issue conflict: \"" ++ "FOO-1"
          ++ "\" does not match the stored issue (" ++ "FOO-2"
          ++ ") for the current branch (" ++ "grr-FOO-1" ++ ")")
    ∧ ensureIssueId "play" MASTER ⟨"", "", "", ""⟩ ""
      = Except.error "missing <issue> argument"
    ∧ ensureIssueId "play" "topic" ⟨"", "", "", ""⟩ ""
      = Except.error "grr was not setup with an <issue> for this branch, use `grr <issue>`"
    ∧ ensureIssueId "play" "grr-TOOLS-3" ⟨"", "", "", ""⟩ "TOOLS-3"
      = parseIssueArg ⟨"", "", "", ""⟩ "play" "TOOLS-3"
    ∧ ensureIssueId "play" "grr-FOO-1" ⟨"jira", "FOO-1", "FOO-1", ""⟩ "FOO-1"
      = Except.ok ⟨"jira", "FOO-1", "FOO-1", ""⟩ :=
  ⟨c4_issue_identity_cases.1 "play" "grr-FOO-1" ⟨"jira", "FOO-1", "FOO-1", ""⟩ "FOO-2"
      (by decide) (by decide) (by decide),
   c4_issue_identity_cases.2.1 "play" ⟨"", "", "", ""⟩ (by decide),
   c4_issue_identity_cases.2.2.1 "play" "topic" ⟨"", "", "", ""⟩ (by decide) (by decide),
   c4_issue_identity_cases.2.2.2.1 "play" "grr-TOOLS-3" ⟨"", "", "", ""⟩ "TOOLS-3"
      (by decide) (by decide),
   c4_issue_identity_cases.2.2.2.2 "play" "grr-FOO-1" ⟨"jira", "FOO-1", "FOO-1", ""⟩ "FOO-1"
      (by decide) (Or.inr (by decide))⟩

/-! ### C1 / C3 / C10: commits to push and the reconcile action -/

lemma applyCrAction_action (pushedCrNum : String) (s : ReconState) (a : CrAction) :
    (applyCrAction pushedCrNum s a).action = a := by
  unfold applyCrAction
  split
  · simp [*]
  · cases s.gitCommits <;> rfl

lemma applyCrAction_of_none (pushedCrNum : String) (s : ReconState) :
    applyCrAction pushedCrNum s CrAction.none = ⟨CrAction.none, s, false, false⟩ := by
  rfl

/-- C1: when a reconciliation invocation decides action `none`, it pushes
nothing and leaves the persisted branch state untouched, and — the local
commits and the remote CR being unchanged — an immediately following
invocation again decides `none`. -/
theorem c1_reconcile_idempotent (remote : String → CurrentCr) (pushedCrNum : String)
    (mi : MsgInputs) (s : ReconState)
    (h : (invoke remote pushedCrNum mi s).action = CrAction.none) :
    (invoke remote pushedCrNum mi s).state = s
      ∧ (invoke remote pushedCrNum mi s).pushed = false
      ∧ (invoke remote pushedCrNum mi ((invoke remote pushedCrNum mi s).state)).action
          = CrAction.none := by
  have hA := applyCrAction_action pushedCrNum s
    (decideCrAction (getCommitsToPush s.branchConfigLastPushedSha s.gitCommits)
      (queryCurrentCr remote s.branchConfigCr)
      (stepGetCommitMessage mi.issueName mi.issueTitle mi.branchConfigParenthetical
        mi.extraIssues (queryCurrentCr remote s.branchConfigCr)))
  have hnone : decideCrAction (getCommitsToPush s.branchConfigLastPushedSha s.gitCommits)
      (queryCurrentCr remote s.branchConfigCr)
      (stepGetCommitMessage mi.issueName mi.issueTitle mi.branchConfigParenthetical
        mi.extraIssues (queryCurrentCr remote s.branchConfigCr)) = CrAction.none := by
    rw [← hA]
    exact h
  have hinv : invoke remote pushedCrNum mi s = ⟨CrAction.none, s, false, false⟩ := by
    show applyCrAction pushedCrNum s _ = _
    rw [hnone, applyCrAction_of_none]
  refine ⟨by rw [hinv], by rw [hinv], ?_⟩
  rw [hinv]
  exact h

/-- C1 witness: a quiescent state (no local commits, no CR) decides `none`
and is left untouched. -/
theorem c1_reconcile_idempotent_witness :
    (invoke (fun _ => ⟨"", "1", []⟩) "272" ⟨"FOO-1", "t", "", []⟩ ⟨[], "", ""⟩).state
        = ⟨[], "", ""⟩
    ∧ (invoke (fun _ => ⟨"", "1", []⟩) "272" ⟨"FOO-1", "t", "", []⟩ ⟨[], "", ""⟩).pushed
        = false
    ∧ (invoke (fun _ => ⟨"", "1", []⟩) "272" ⟨"FOO-1", "t", "", []⟩
        ((invoke (fun _ => ⟨"", "1", []⟩) "272" ⟨"FOO-1", "t", "", []⟩
          ⟨[], "", ""⟩).state)).action = CrAction.none :=
  c1_reconcile_idempotent (fun _ => ⟨"", "1", []⟩) "272" ⟨"FOO-1", "t", "", []⟩
    ⟨[], "", ""⟩ rfl

/-- C3: the commits-to-push computation.  No commits, or a cached
`lastPushedSha` equal to the newest commit's sha, means nothing to push;
with no cached `lastPushedSha` every commit is pushed; otherwise the
commits newest-first strictly before the one matching `lastPushedSha` are
pushed (in particular `[c3, c2]` for commits `[c3, c2, c1]` newest-first
with `lastPushedSha = c1.sha`); nonempty commits-to-push decide `create`
without a current CR and `update` with one. -/
theorem c3_commits_to_push :
    (∀ lps : String, getCommitsToPush lps [] = Option.none)
    ∧ (∀ (lps : String) (c0 : Commit) (cs : List Commit),
        lps ≠ "" → lps = c0.sha → getCommitsToPush lps (c0 :: cs) = Option.none)
    ∧ (∀ (c0 : Commit) (cs : List Commit), (∀ c ∈ c0 :: cs, c.sha ≠ "") →
        getCommitsToPush "" (c0 :: cs) = some (c0 :: cs))
    ∧ (∀ (lps : String) (c0 : Commit) (pre post : List Commit) (cm : Commit),
        lps ≠ "" → cm.sha = lps → (∀ c ∈ c0 :: pre, c.sha ≠ lps) →
        getCommitsToPush lps ((c0 :: pre) ++ cm :: post) = some (c0 :: pre))
    ∧ (∀ c1 c2 c3 : Commit, c1.sha ≠ "" → c2.sha ≠ c1.sha → c3.sha ≠ c1.sha →
        getCommitsToPush c1.sha [c3, c2, c1] = some [c3, c2])
    ∧ (∀ (c : Commit) (cs : List Commit) (msg : String),
        decideCrAction (some (c :: cs)) Option.none msg = CrAction.create)
    ∧ (∀ (c : Commit) (cs : List Commit) (cr : CurrentCr) (msg : String),
        decideCrAction (some (c :: cs)) (some cr) msg = CrAction.update) := by
  have hmain : ∀ (lps : String) (c0 : Commit) (pre post : List Commit) (cm : Commit),
      lps ≠ "" → cm.sha = lps → (∀ c ∈ c0 :: pre, c.sha ≠ lps) →
      getCommitsToPush lps ((c0 :: pre) ++ cm :: post) = some (c0 :: pre) := by
    intro lps c0 pre post cm h1 h2 h3
    have h0 : ¬(lps ≠ "" ∧ lps = c0.sha) := by
      rintro ⟨-, he⟩
      exact h3 c0 (by simp) he.symm
    rw [List.cons_append]
    simp only [getCommitsToPush]
    rw [if_neg h0, ← List.cons_append]
    rw [takeWhile_append_of _ (c0 :: pre) cm post
      (fun c hc => by simp [bne_iff_ne, Ne.symm (h3 c hc)])
      (by simp [h2])]
  refine ⟨fun lps => rfl, ?_, ?_, hmain, ?_, fun c cs msg => rfl, fun c cs cr msg => rfl⟩
  · intro lps c0 cs h1 h2
    simp only [getCommitsToPush]
    rw [if_pos ⟨h1, h2⟩]
  · intro c0 cs h
    simp only [getCommitsToPush]
    rw [if_neg (by simp)]
    rw [takeWhile_eq_self_of _ _ (fun c hc => by simp [bne_iff_ne, Ne.symm (h c hc)])]
  · intro c1 c2 c3 h1 h2 h3
    refine hmain c1.sha c3 [c2] [] c1 h1 rfl ?_
    intro c hc
    rcases List.mem_cons.mp hc with rfl | hc2
    · exact h3
    · rcases List.mem_cons.mp hc2 with rfl | hc3
      · exact h2
      · exact absurd hc3 (List.not_mem_nil c)

/-- C3 witness: concrete instances of every conjunct. -/
theorem c3_commits_to_push_witness :
    getCommitsToPush "s9" [] = Option.none
    ∧ getCommitsToPush "s3" [⟨"s3", "a", "m3"⟩, ⟨"s2", "a", "m2"⟩] = Option.none
    ∧ getCommitsToPush "" [⟨"s3", "a", "m3"⟩, ⟨"s2", "a", "m2"⟩]
        = some [⟨"s3", "a", "m3"⟩, ⟨"s2", "a", "m2"⟩]
    ∧ getCommitsToPush "s1" ([⟨"s3", "a", "m3"⟩, ⟨"s2", "a", "m2"⟩]
          ++ ⟨"s1", "a", "m1"⟩ :: [⟨"s0", "a", "m0"⟩])
        = some [⟨"s3", "a", "m3"⟩, ⟨"s2", "a", "m2"⟩]
    ∧ getCommitsToPush "s1" [⟨"s3", "a", "m3"⟩, ⟨"s2", "a", "m2"⟩, ⟨"s1", "a", "m1"⟩]
        = some [⟨"s3", "a", "m3"⟩, ⟨"s2", "a", "m2"⟩]
    ∧ decideCrAction (some [⟨"s3", "a", "m3"⟩]) Option.none "m" = CrAction.create
    ∧ decideCrAction (some [⟨"s3", "a", "m3"⟩]) (some ⟨"m", "1", []⟩) "m"
        = CrAction.update :=
  ⟨c3_commits_to_push.1 "s9",
   c3_commits_to_push.2.1 "s3" ⟨"s3", "a", "m3"⟩ [⟨"s2", "a", "m2"⟩] (by decide) rfl,
   c3_commits_to_push.2.2.1 ⟨"s3", "a", "m3"⟩ [⟨"s2", "a", "m2"⟩] (by decide),
   c3_commits_to_push.2.2.2.1 "s1" ⟨"s3", "a", "m3"⟩ [⟨"s2", "a", "m2"⟩]
     [⟨"s0", "a", "m0"⟩] ⟨"s1", "a", "m1"⟩ (by decide) rfl (by decide),
   c3_commits_to_push.2.2.2.2.1 ⟨"s1", "a", "m1"⟩ ⟨"s2", "a", "m2"⟩ ⟨"s3", "a", "m3"⟩
     (by decide) (by decide) (by decide),
   c3_commits_to_push.2.2.2.2.2.1 ⟨"s3", "a", "m3"⟩ [] "m",
   c3_commits_to_push.2.2.2.2.2.2 ⟨"s3", "a", "m3"⟩ [] ⟨"m", "1", []⟩ "m"⟩

/-- C10: whenever `stepCreateUpdateCr` decides an action other than `none`
with an empty local commit list, it aborts with the thrown
`arg.gitCommits[0].meta.Author` TypeError before running any git command;
in particular, for the message-only-update case (no local commits, cached
CR, stored CR message differing from the computed one) the decided action
is `updateCommitMessage` but the invocation fails with the runtime error
instead of amending the commit message. -/
theorem c10_empty_commits_crash :
    (∀ (pushedCrNum commitMessage : String) (s : ReconState) (cur : Option CurrentCr),
      (reconcileTail pushedCrNum s commitMessage cur).action ≠ CrAction.none →
      s.gitCommits = [] →
      (reconcileTail pushedCrNum s commitMessage cur).runtimeError = true
        ∧ (reconcileTail pushedCrNum s commitMessage cur).pushed = false
        ∧ (reconcileTail pushedCrNum s commitMessage cur).state = s)
    ∧ (∀ (remote : String → CurrentCr) (pushedCrNum : String) (mi : MsgInputs)
        (s : ReconState),
        s.gitCommits = [] → s.branchConfigCr ≠ "" →
        jsTrim (remote s.branchConfigCr).commitMessage
          ≠ jsTrim (stepGetCommitMessage mi.issueName mi.issueTitle
              mi.branchConfigParenthetical mi.extraIssues (some (remote s.branchConfigCr))) →
        invoke remote pushedCrNum mi s
          = ⟨CrAction.updateCommitMessage, s, false, true⟩) := by
  constructor
  · intro pushedCrNum commitMessage s cur hne hnil
    by_cases hA : decideCrAction (getCommitsToPush s.branchConfigLastPushedSha s.gitCommits)
        cur commitMessage = CrAction.none
    · exact absurd ((applyCrAction_action pushedCrNum s _).trans hA) hne
    · have hres : reconcileTail pushedCrNum s commitMessage cur
          = ⟨decideCrAction (getCommitsToPush s.branchConfigLastPushedSha s.gitCommits)
              cur commitMessage, s, false, true⟩ := by
        show applyCrAction pushedCrNum s _ = _
        unfold applyCrAction
        rw [if_neg hA, hnil]
      rw [hres]
      exact ⟨rfl, rfl, rfl⟩
  · intro remote pushedCrNum mi s hnil hcr hmsg
    have hq : queryCurrentCr remote s.branchConfigCr = some (remote s.branchConfigCr) := by
      unfold queryCurrentCr
      rw [if_neg hcr]
    have hact : decideCrAction (getCommitsToPush s.branchConfigLastPushedSha s.gitCommits)
        (queryCurrentCr remote s.branchConfigCr)
        (stepGetCommitMessage mi.issueName mi.issueTitle mi.branchConfigParenthetical
          mi.extraIssues (queryCurrentCr remote s.branchConfigCr))
        = CrAction.updateCommitMessage := by
      rw [hq, hnil]
      simp only [getCommitsToPush, decideCrAction]
      rw [if_pos hmsg]
    show applyCrAction pushedCrNum s _ = _
    rw [hact]
    unfold applyCrAction
    rw [if_neg (by decide), hnil]

/-- C10 witness: no local commits, a cached CR `272` whose stored message
differs from the computed one — the action decided is
`updateCommitMessage` and the run ends in the runtime error, having
pushed nothing and persisted nothing. -/
theorem c10_empty_commits_crash_witness :
    ((reconcileTail "272" ⟨[], "", "272"⟩ "FOO-1 t"
        (queryCurrentCr (fun _ => ⟨"FOO-1 old", "1", []⟩) "272")).runtimeError = true
      ∧ (reconcileTail "272" ⟨[], "", "272"⟩ "FOO-1 t"
          (queryCurrentCr (fun _ => ⟨"FOO-1 old", "1", []⟩) "272")).pushed = false
      ∧ (reconcileTail "272" ⟨[], "", "272"⟩ "FOO-1 t"
          (queryCurrentCr (fun _ => ⟨"FOO-1 old", "1", []⟩) "272")).state
        = ⟨[], "", "272"⟩)
    ∧ invoke (fun _ => ⟨"FOO-1 old", "1", []⟩) "272" ⟨"FOO-1", "t", "", []⟩
        ⟨[], "", "272"⟩
      = ⟨CrAction.updateCommitMessage, ⟨[], "", "272"⟩, false, true⟩ :=
  ⟨c10_empty_commits_crash.1 "272" "FOO-1 t" ⟨[], "", "272"⟩
     (queryCurrentCr (fun _ => ⟨"FOO-1 old", "1", []⟩) "272") (by decide) rfl,
   c10_empty_commits_crash.2 (fun _ => ⟨"FOO-1 old", "1", []⟩) "272"
     ⟨"FOO-1", "t", "", []⟩ ⟨[], "", "272"⟩ rfl (by decide) (by decide)⟩

/-! ### C7 / C9: extra-issue set invariants and repeatability -/

lemma parseExtraIssuesLoop_ok_inv (repoName mainIssueId : String)
    (fetchTitle : Issue → Except String String) :
    ∀ (xs : List Issue) (seen : List String) (l : List Issue),
      parseExtraIssuesLoop repoName mainIssueId fetchTitle xs seen = Except.ok l →
      (∀ i ∈ l, i.issueId ≠ mainIssueId ∧ i.issueId ∉ seen)
        ∧ (l.map Issue.issueId).Nodup := by
  intro xs
  induction xs with
  | nil =>
    intro seen l h
    simp only [parseExtraIssuesLoop] at h
    cases h
    simp
  | cons x rest ih =>
    intro seen l h
    simp only [parseExtraIssuesLoop] at h
    cases hp : parseIssueArg x repoName x.issueId with
    | error e => simp only [hp] at h; cases h
    | ok iss2 =>
      simp only [hp] at h
      by_cases hmainEq : iss2.issueId = mainIssueId
      · rw [if_pos hmainEq] at h; cases h
      · rw [if_neg hmainEq] at h
        by_cases hseen : seen.contains iss2.issueId = true
        · rw [if_pos hseen] at h; cases h
        · rw [if_neg hseen] at h
          cases hf : fetchTitle iss2 with
          | error e => simp only [hf] at h; cases h
          | ok t =>
            simp only [hf] at h
            cases hrec : parseExtraIssuesLoop repoName mainIssueId fetchTitle rest
                (iss2.issueId :: seen) with
            | error e => simp only [hrec] at h; cases h
            | ok l2 =>
              simp only [hrec] at h
              have hl : l = { iss2 with issueTitle := t } :: l2 := by
                injection h with h2
                exact h2.symm
              subst hl
              obtain ⟨hmem, hnd⟩ := ih (iss2.issueId :: seen) l2 hrec
              constructor
              · intro i hi
                rcases List.mem_cons.mp hi with rfl | hi2
                · exact ⟨hmainEq, fun habs => hseen (List.elem_eq_true_of_mem habs)⟩
                · obtain ⟨ha, hb⟩ := hmem i hi2
                  exact ⟨ha, fun habs => hb (List.mem_cons_of_mem _ habs)⟩
              · rw [List.map_cons]
                refine List.nodup_cons.mpr ⟨?_, hnd⟩
                intro habs
                obtain ⟨j, hj, hje⟩ := List.mem_map.mp habs
                obtain ⟨-, hb⟩ := hmem j hj
                rw [hje] at hb
                exact hb (List.mem_cons_self _ _)

lemma parseExtraIssuesLoop_append (repoName mainIssueId : String)
    (fetchTitle : Issue → Except String String) :
    ∀ (xs ys : List Issue) (seen : List String) (r : List Issue),
      parseExtraIssuesLoop repoName mainIssueId fetchTitle xs seen = Except.ok r →
      parseExtraIssuesLoop repoName mainIssueId fetchTitle (xs ++ ys) seen
        = match parseExtraIssuesLoop repoName mainIssueId fetchTitle ys
              ((r.map Issue.issueId).reverse ++ seen) with
          | Except.error e => Except.error e
          | Except.ok m => Except.ok (r ++ m) := by
  intro xs
  induction xs with
  | nil =>
    intro ys seen r h
    simp only [parseExtraIssuesLoop] at h
    cases h
    simp only [List.nil_append, List.map_nil, List.reverse_nil]
    cases hys : parseExtraIssuesLoop repoName mainIssueId fetchTitle ys seen <;> simp
  | cons x rest ih =>
    intro ys seen r h
    simp only [parseExtraIssuesLoop] at h
    rw [List.cons_append]
    simp only [parseExtraIssuesLoop]
    cases hp : parseIssueArg x repoName x.issueId with
    | error e => simp only [hp] at h; cases h
    | ok iss2 =>
      simp only [hp] at h ⊢
      by_cases hmainEq : iss2.issueId = mainIssueId
      · rw [if_pos hmainEq] at h; cases h
      · rw [if_neg hmainEq] at h ⊢
        by_cases hseen : seen.contains iss2.issueId = true
        · rw [if_pos hseen] at h; cases h
        · rw [if_neg hseen] at h ⊢
          cases hf : fetchTitle iss2 with
          | error e => simp only [hf] at h; cases h
          | ok t =>
            simp only [hf] at h ⊢
            cases hrec : parseExtraIssuesLoop repoName mainIssueId fetchTitle rest
                (iss2.issueId :: seen) with
            | error e => simp only [hrec] at h; cases h
            | ok l2 =>
              simp only [hrec] at h
              have hl : r = { iss2 with issueTitle := t } :: l2 := by
                injection h with h2
                exact h2.symm
              subst hl
              rw [ih ys (iss2.issueId :: seen) l2 hrec]
              have hseenEq :
                  ((({ iss2 with issueTitle := t } :: l2).map Issue.issueId).reverse ++ seen)
                    = ((l2.map Issue.issueId).reverse ++ (iss2.issueId :: seen)) := by
                simp
              rw [hseenEq]
              cases parseExtraIssuesLoop repoName mainIssueId fetchTitle ys
                  ((l2.map Issue.issueId).reverse ++ (iss2.issueId :: seen)) <;> simp

/-- C7: for every run of the extra-issue reconciliation that completes
successfully, the resulting extra-issue list never contains the primary
issue id and never contains duplicate (normalized) ids; removing an id
that names the primary issue fails with the cannot-remove-main-issue
error; adding one fails with the cannot-add-main-issue error; and adding
an id already present fails with the duplicate-extra-issue error. -/
theorem c7_extra_issue_invariants :
    (∀ (repoName mainIssueId : String) (fetchTitle : Issue → Except String String)
        (addArgs : List String) (extra l : List Issue),
        stepParseExtraIssues repoName mainIssueId fetchTitle addArgs extra = Except.ok l →
        (∀ i ∈ l, i.issueId ≠ mainIssueId) ∧ (l.map Issue.issueId).Nodup)
    ∧ (∀ (repoName mainIssueId : String) (extra : List Issue) (a : String) (i : Issue),
        parseIssueArg (mkArgIssue a) repoName a = Except.ok i → i.issueId = mainIssueId →
        stepRemoveExtraIssues repoName mainIssueId [a] extra
          = Except.error ("cannot remove main issue " ++ mainIssueId))
    ∧ (∀ (repoName mainIssueId : String) (fetchTitle : Issue → Except String String)
        (a : String) (i : Issue),
        parseIssueArg (mkArgIssue a) repoName a = Except.ok i → i.issueId = mainIssueId →
        stepParseExtraIssues repoName mainIssueId fetchTitle [a] []
          = Except.error ("cannot add main issue " ++ mainIssueId ++ " as an extra issue"))
    ∧ (∀ (repoName mainIssueId : String) (fetchTitle : Issue → Except String String)
        (a : String) (i : Issue) (t : String),
        parseIssueArg (mkArgIssue a) repoName a = Except.ok i → i.issueId ≠ mainIssueId →
        fetchTitle i = Except.ok t →
        stepParseExtraIssues repoName mainIssueId fetchTitle [a] [mkArgIssue a]
          = Except.error ("duplicate extra issue " ++ i.issueId)) := by
  refine ⟨?_, ?_, ?_, ?_⟩
  · intro repoName mainIssueId fetchTitle addArgs extra l h
    obtain ⟨hmem, hnd⟩ := parseExtraIssuesLoop_ok_inv repoName mainIssueId fetchTitle
      (extra ++ addArgs.map mkArgIssue) [] l h
    exact ⟨fun i hi => (hmem i hi).1, hnd⟩
  · intro repoName mainIssueId extra a i hp hmain
    unfold stepRemoveExtraIssues removeExtraIssuesLoop
    simp only [hp, if_pos hmain]
  · intro repoName mainIssueId fetchTitle a i hp hmain
    unfold stepParseExtraIssues
    simp only [List.nil_append, List.map_cons, List.map_nil]
    simp only [parseExtraIssuesLoop, mkArgIssue]
    simp only [mkArgIssue] at hp
    simp only [hp, if_pos hmain]
  · intro repoName mainIssueId fetchTitle a i t hp hmain hf
    unfold stepParseExtraIssues
    simp only [List.cons_append, List.singleton_append, List.map_cons, List.map_nil]
    simp only [parseExtraIssuesLoop, mkArgIssue]
    simp only [mkArgIssue] at hp
    simp only [hp, hf, if_neg hmain]
    rw [if_neg (fun hcon => nomatch hcon)]
    rw [if_pos (by simp)]

/-- C7 witness: concrete instances of every conjunct. -/
theorem c7_extra_issue_invariants_witness :
    ((∀ i ∈ [(⟨"jira", "TOOLS-2", "TOOLS-2", "t"⟩ : Issue)], i.issueId ≠ "TOOLS-1")
      ∧ (([(⟨"jira", "TOOLS-2", "TOOLS-2", "t"⟩ : Issue)].map Issue.issueId)).Nodup)
    ∧ stepRemoveExtraIssues "play" "TOOLS-1" ["TOOLS-1"] []
        = Except.error ("cannot remove main issue " ++ "TOOLS-1")
    ∧ stepParseExtraIssues "play" "TOOLS-1" (fun _ => Except.ok "t") ["TOOLS-1"] []
        = Except.error ("cannot add main issue " ++ "TOOLS-1" ++ " as an extra issue")
    ∧ stepParseExtraIssues "play" "TOOLS-1" (fun _ => Except.ok "t") ["TOOLS-2"]
        [mkArgIssue "TOOLS-2"]
        = Except.error ("duplicate extra issue " ++ "TOOLS-2") :=
  ⟨c7_extra_issue_invariants.1 "play" "TOOLS-1" (fun _ => Except.ok "t") ["TOOLS-2"] []
     [⟨"jira", "TOOLS-2", "TOOLS-2", "t"⟩] rfl,
   c7_extra_issue_invariants.2.1 "play" "TOOLS-1" [] "TOOLS-1"
     ⟨"jira", "TOOLS-1", "TOOLS-1", ""⟩ rfl rfl,
   c7_extra_issue_invariants.2.2.1 "play" "TOOLS-1" (fun _ => Except.ok "t") "TOOLS-1"
     ⟨"jira", "TOOLS-1", "TOOLS-1", ""⟩ rfl rfl,
   c7_extra_issue_invariants.2.2.2 "play" "TOOLS-1" (fun _ => Except.ok "t") "TOOLS-2"
     ⟨"jira", "TOOLS-2", "TOOLS-2", ""⟩ "t" rfl (by decide) rfl⟩

lemma removeExtraIssuesLoop_subset (repoName mainIssueId : String) :
    ∀ (args : List String) (acc l : List Issue),
      removeExtraIssuesLoop repoName mainIssueId args acc = Except.ok l →
      ∀ x ∈ l, x ∈ acc := by
  intro args
  induction args with
  | nil =>
    intro acc l h
    simp only [removeExtraIssuesLoop] at h
    cases h
    exact fun x hx => hx
  | cons a rest ih =>
    intro acc l h
    simp only [removeExtraIssuesLoop] at h
    cases hp : parseIssueArg (mkArgIssue a) repoName a with
    | error e => simp only [hp] at h; cases h
    | ok iss =>
      simp only [hp] at h
      by_cases hmain : iss.issueId = mainIssueId
      · rw [if_pos hmain] at h; cases h
      · rw [if_neg hmain] at h
        intro x hx
        exact List.mem_of_mem_filter (ih _ l h x hx)

lemma removeExtraIssuesLoop_idem (repoName mainIssueId : String) :
    ∀ (args : List String) (acc l : List Issue),
      removeExtraIssuesLoop repoName mainIssueId args acc = Except.ok l →
      removeExtraIssuesLoop repoName mainIssueId args l = Except.ok l := by
  intro args
  induction args with
  | nil =>
    intro acc l h
    simp only [removeExtraIssuesLoop] at h ⊢
  | cons a rest ih =>
    intro acc l h
    simp only [removeExtraIssuesLoop] at h ⊢
    cases hp : parseIssueArg (mkArgIssue a) repoName a with
    | error e => simp only [hp] at h; cases h
    | ok iss =>
      simp only [hp] at h ⊢
      by_cases hmain : iss.issueId = mainIssueId
      · rw [if_pos hmain] at h; cases h
      · rw [if_neg hmain] at h ⊢
        have hsub : ∀ x ∈ l, x ∈ acc.filter (fun y => y.issueId != iss.issueId) :=
          removeExtraIssuesLoop_subset repoName mainIssueId rest _ l h
        have hfix : l.filter (fun y => y.issueId != iss.issueId) = l := by
          apply List.filter_eq_self.mpr
          intro x hx
          exact (List.mem_filter.mp (hsub x hx)).2
        rw [hfix]
        exact ih _ l h

/-- C9 counterexample: a first invocation with `-a TOOLS-2` on an empty
cached extra-issue set succeeds and persists `TOOLS-2`; a second
invocation with the same `-a TOOLS-2` argument then fails with the
duplicate-extra-issue error instead of succeeding with the same set. -/
theorem c9_repeat_add_counterexample :
    stepParseExtraIssues "play" "TOOLS-1" (fun _ => Except.ok "t") ["TOOLS-2"] []
      = Except.ok [⟨"jira", "TOOLS-2", "TOOLS-2", "t"⟩]
    ∧ stepParseExtraIssues "play" "TOOLS-1" (fun _ => Except.ok "t") ["TOOLS-2"]
        [⟨"jira", "TOOLS-2", "TOOLS-2", "t"⟩]
      = Except.error "duplicate extra issue TOOLS-2" :=
  ⟨rfl, rfl⟩

/-- C9 (amended): removal is idempotent across invocations — re-running
the same remove arguments on the persisted result succeeds and leaves the
set unchanged, because the set is re-derived from the persisted state.
Addition is not: when the persisted extra-issue set already contains the
added id (as it does after a successful first invocation with that same
add argument), the repeated invocation fails with the
duplicate-extra-issue error rather than succeeding with the same set. -/
theorem c9_repeat_args_amended :
    (∀ (repoName mainIssueId : String) (args : List String) (extra l : List Issue),
      stepRemoveExtraIssues repoName mainIssueId args extra = Except.ok l →
      stepRemoveExtraIssues repoName mainIssueId args l = Except.ok l)
    ∧ (∀ (repoName mainIssueId : String) (fetchTitle : Issue → Except String String)
        (cached l : List Issue) (a : String) (i : Issue),
        stepParseExtraIssues repoName mainIssueId fetchTitle [] cached = Except.ok l →
        parseIssueArg (mkArgIssue a) repoName a = Except.ok i →
        i.issueId ∈ l.map Issue.issueId →
        stepParseExtraIssues repoName mainIssueId fetchTitle [a] cached
          = Except.error ("duplicate extra issue " ++ i.issueId)) := by
  constructor
  · intro repoName mainIssueId args extra l h
    exact removeExtraIssuesLoop_idem repoName mainIssueId args extra l h
  · intro repoName mainIssueId fetchTitle cached l a i h1 hp hmem
    have h1' : parseExtraIssuesLoop repoName mainIssueId fetchTitle cached []
        = Except.ok l := by
      have := h1
      unfold stepParseExtraIssues at this
      simpa using this
    have hmain : i.issueId ≠ mainIssueId := by
      obtain ⟨j, hj, hje⟩ := List.mem_map.mp hmem
      obtain ⟨hmem2, -⟩ := parseExtraIssuesLoop_ok_inv repoName mainIssueId fetchTitle
        cached [] l h1'
      exact hje ▸ (hmem2 j hj).1
    unfold stepParseExtraIssues
    rw [show cached ++ [a].map mkArgIssue = cached ++ [mkArgIssue a] from rfl]
    rw [parseExtraIssuesLoop_append repoName mainIssueId fetchTitle cached [mkArgIssue a]
      [] l h1']
    have hstep : parseExtraIssuesLoop repoName mainIssueId fetchTitle [mkArgIssue a]
        ((l.map Issue.issueId).reverse ++ [])
        = Except.error ("duplicate extra issue " ++ i.issueId) := by
      simp only [parseExtraIssuesLoop, mkArgIssue]
      simp only [mkArgIssue] at hp
      simp only [hp, if_neg hmain]
      rw [if_pos (by simp [hmem])]
    rw [hstep]

/-- C9 witness: concrete instances — re-removing `TOOLS-2` after it was
already removed still succeeds with the same (empty) set, and re-adding
`TOOLS-2` when the persisted set already carries it fails with the
duplicate error. -/
theorem c9_repeat_args_amended_witness :
    stepRemoveExtraIssues "play" "TOOLS-1" ["TOOLS-2"] []
      = Except.ok []
    ∧ stepParseExtraIssues "play" "TOOLS-1" (fun _ => Except.ok "t") ["TOOLS-2"]
        [⟨"jira", "TOOLS-2", "TOOLS-2", "t"⟩]
      = Except.error ("duplicate extra issue " ++ "TOOLS-2") :=
  ⟨c9_repeat_args_amended.1 "play" "TOOLS-1" ["TOOLS-2"]
     [⟨"jira", "TOOLS-2", "TOOLS-2", "t"⟩] [] rfl,
   c9_repeat_args_amended.2 "play" "TOOLS-1" (fun _ => Except.ok "t")
     [⟨"jira", "TOOLS-2", "TOOLS-2", "t"⟩] [⟨"jira", "TOOLS-2", "TOOLS-2", "t"⟩]
     "TOOLS-2" ⟨"jira", "TOOLS-2", "TOOLS-2", ""⟩ rfl rfl (by simp)⟩

end Grr
